import Mathlib

/-
  Shallow embedding of tools/osm_to_ratms.py (OSM to RATMS network converter).

  Modelling conventions:
  * Python floats are modelled as rationals (ℚ); Python's `round(x, n)`
    (round-half-to-even on the scaled value) is modelled exactly on ℚ by
    `pyRound`.
  * `haversine_distance` computes a great-circle distance with transcendental
    floating-point functions (sin, cos, atan2, sqrt); the network builder is
    therefore parametrised over the distance function `dist`.  Every theorem
    below is proved for an arbitrary `dist`, so nothing depends on its values.
  * Python's `int(str)` conversion is modelled by `pyParseInt` (ASCII
    whitespace stripping, optional sign, digits with single underscores
    allowed between digits).
  * Python dictionaries keyed by node id are modelled as functions
    `ℤ → Option GeoPoint` resp. `ℤ → List ℕ`; the insertion order of the
    keys of `node_to_incoming_roads` (Python dict iteration order) is
    tracked explicitly in `incomingKeys`.
  * A Python `IndexError` on `roads[i]` is modelled by the connection phase
    returning `Option`; `none` means the run would crash.
-/

namespace OsmToRatms

set_option maxRecDepth 1000000

/-- The floor of a rational, written so that it evaluates by kernel
reduction (it equals `⌊q⌋` by `Rat.floor_eq_div`). -/
def ratFloor (q : ℚ) : ℤ := q.num / q.den

/-- Python's round-half-to-even on a rational, returning an integer. -/
def roundHalfEven (q : ℚ) : ℤ :=
  let f := ratFloor q
  let r := q - (f : ℚ)
  if r < 1/2 then f
  else if 1/2 < r then f + 1
  else if f % 2 = 0 then f else f + 1

/-- Python's `round(q, ndigits)` modelled on rationals. -/
def pyRound (ndigits : ℕ) (q : ℚ) : ℚ :=
  (roundHalfEven (q * (10 : ℚ) ^ ndigits) : ℚ) / (10 : ℚ) ^ ndigits

/-- ASCII whitespace accepted (and stripped) by Python's `int(str)`. -/
def isPySpace (c : Char) : Bool :=
  c = ' ' || c = '\t' || c = '\n' || c = '\r' || c.toNat = 11 || c.toNat = 12

/-- Numeric value of a decimal digit character. -/
def digitVal (c : Char) : ℕ := c.toNat - 48

/-- Digits of a Python integer literal after the first digit: single
underscores are permitted between digits. -/
def parseDigitsAux : ℕ → List Char → Option ℕ
  | acc, [] => some acc
  | acc, '_' :: c :: cs =>
      if c.isDigit then parseDigitsAux (acc * 10 + digitVal c) cs else none
  | _, ['_'] => none
  | acc, c :: cs =>
      if c.isDigit then parseDigitsAux (acc * 10 + digitVal c) cs else none

/-- Nonempty digit string of a Python integer literal. -/
def parseDigits : List Char → Option ℕ
  | [] => none
  | c :: cs => if c.isDigit then parseDigitsAux (digitVal c) cs else none

/-- Python's `int(str)`: strip whitespace, optional sign, decimal digits. -/
def pyParseInt (s : String) : Option ℤ :=
  let cs := ((s.toList.dropWhile isPySpace).reverse.dropWhile isPySpace).reverse
  match cs with
  | '+' :: rest => (parseDigits rest).map fun n => (n : ℤ)
  | '-' :: rest => (parseDigits rest).map fun n => -(n : ℤ)
  | rest => (parseDigits rest).map fun n => (n : ℤ)

/-- Replace every occurrence of `pat` (nonempty) in a character list,
scanning left to right, as Python's `str.replace` does. -/
def strReplaceAux (pat rep : List Char) (hp : pat ≠ []) : List Char → List Char
  | [] => []
  | c :: rest =>
    if pat.isPrefixOf (c :: rest) then
      rep ++ strReplaceAux pat rep hp ((c :: rest).drop pat.length)
    else
      c :: strReplaceAux pat rep hp rest
  termination_by l => l.length
  decreasing_by
  · have h1 : 1 ≤ pat.length := by
      cases pat with
      | nil => exact absurd rfl hp
      | cons a l => simp
    simp [List.length_drop]
    omega
  · simp

/-- Python's `s.replace(old, new)` for a nonempty `old` pattern (the only
case the source uses; an empty pattern is returned unchanged here). -/
def pyReplace (s old new : String) : String :=
  if h : old.toList = [] then s
  else ⟨strReplaceAux old.toList new.toList h s.toList⟩

/-- The source's `tags['maxspeed'].replace(' km/h', '').replace(' mph', '')`:
note the unit literals carry a leading space. -/
def stripUnits (s : String) : String :=
  pyReplace (pyReplace s " km/h" "") " mph" ""

/-- Stripping as the specification words it ("the unit suffixes
\"km/h\" and \"mph\""), i.e. without the leading space.  Stated only to be
compared with the source's `stripUnits`. -/
def specStripUnits (s : String) : String :=
  pyReplace (pyReplace s "km/h" "") "mph" ""

/-- The ROAD_TYPES table of the source: road class to default speed (km/h). -/
def ROAD_TYPES : List (String × ℤ) :=
  [("motorway", 120), ("motorway_link", 80), ("trunk", 100), ("trunk_link", 60),
   ("primary", 50), ("primary_link", 40), ("secondary", 50), ("secondary_link", 40),
   ("tertiary", 40), ("tertiary_link", 30), ("residential", 30), ("living_street", 20),
   ("unclassified", 30), ("service", 20)]

/-- The DEFAULT_LANES table of the source: road class to default lane count. -/
def DEFAULT_LANES : List (String × ℤ) :=
  [("motorway", 3), ("motorway_link", 1), ("trunk", 2), ("trunk_link", 1),
   ("primary", 2), ("primary_link", 1), ("secondary", 2), ("secondary_link", 1),
   ("tertiary", 1), ("tertiary_link", 1), ("residential", 1), ("living_street", 1),
   ("unclassified", 1), ("service", 1)]

/-- `ROAD_TYPES.get(highway_type, 30)` of the source. -/
def roadTypeSpeed (h : String) : ℤ := (ROAD_TYPES.lookup h).getD 30

/-- `DEFAULT_LANES.get(highway_type, 1)` of the source. -/
def defaultLaneCount (h : String) : ℤ := (DEFAULT_LANES.lookup h).getD 1

/-- OSM way tags: a string-keyed dictionary, modelled as an association
list (no duplicate keys arise from parsed OSM JSON). -/
abbrev Tags := List (String × String)

/-- A geographic point (latitude, longitude) in degrees. -/
structure GeoPoint where
  lat : ℚ
  lon : ℚ
deriving DecidableEq, Repr

/-- The bounding box `[min_lon, min_lat, max_lon, max_lat]` of the run. -/
structure Bbox where
  minLon : ℚ
  minLat : ℚ
  maxLon : ℚ
  maxLat : ℚ
deriving DecidableEq, Repr

/-- The per-endpoint containment check of `build_road_network`
(`min_lat <= lat <= max_lat and min_lon <= lon <= max_lon`), inclusive on
both ranges. -/
def inBounds (b : Bbox) (p : GeoPoint) : Bool :=
  decide (b.minLat ≤ p.lat ∧ p.lat ≤ b.maxLat ∧ b.minLon ≤ p.lon ∧ p.lon ≤ b.maxLon)

/-- A parsed OSM way as produced by `parse_osm_data`. -/
structure Way where
  id : ℤ
  nodes : List ℤ
  name : String
  highway : String
  maxSpeed : ℚ
  lanes : ℤ
  oneway : Bool
deriving DecidableEq, Repr

/-- `tags.get('highway', 'unclassified')` of the source. -/
def wayHighway (tags : Tags) : String := (tags.lookup "highway").getD "unclassified"

/-- The way's speed limit in km/h: the ROAD_TYPES table value for its class,
overridden by the `maxspeed` tag when that tag parses as an integer after
the source's unit-literal removal; a non-parseable tag is ignored. -/
def waySpeedKmh (tags : Tags) : ℤ :=
  let base := roadTypeSpeed (wayHighway tags)
  match tags.lookup "maxspeed" with
  | none => base
  | some s =>
    match pyParseInt (stripUnits s) with
    | some n => n
    | none => base

/-- The way's raw lane count: the DEFAULT_LANES table value for its class,
overridden by the `lanes` tag when it parses as an integer. -/
def wayLaneCount (tags : Tags) : ℤ :=
  let base := defaultLaneCount (wayHighway tags)
  match tags.lookup "lanes" with
  | none => base
  | some s =>
    match pyParseInt s with
    | some n => n
    | none => base

/-- `tags.get('oneway', 'no') in ['yes', '1', 'true']` of the source. -/
def wayOneway (tags : Tags) : Bool :=
  let v := (tags.lookup "oneway").getD "no"
  v = "yes" || v = "1" || v = "true"

/-- The way record built by `parse_osm_data` for one OSM way element:
speed in m/s (km/h divided by 3.6), lanes split in half (floored, at least
one) for bidirectional ways. -/
def parseWay (wid : ℤ) (nodeRefs : List ℤ) (tags : Tags) : Way :=
  { id := wid
    nodes := nodeRefs
    name := (tags.lookup "name").getD ""
    highway := wayHighway tags
    maxSpeed := (waySpeedKmh tags : ℚ) / 3.6
    lanes := if wayOneway tags then wayLaneCount tags
             else max 1 ((wayLaneCount tags).fdiv 2)
    oneway := wayOneway tags }

/-- One element of the OSM response: a node with coordinates, or a way with
its ordered node references and tag dictionary. -/
inductive OsmElement where
  | node (id : ℤ) (lat lon : ℚ)
  | way (id : ℤ) (nodeRefs : List ℤ) (tags : Tags)

/-- `parse_osm_data`: fold over the elements, building the node dictionary
(later duplicates overwrite) and the way list in order. -/
def parse_osm_data (elements : List OsmElement) :
    (ℤ → Option GeoPoint) × List Way :=
  elements.foldl
    (fun acc e =>
      match e with
      | .node i la lo => (fun k => if k = i then some ⟨la, lo⟩ else acc.1 k, acc.2)
      | .way i refs tags => (acc.1, acc.2 ++ [parseWay i refs tags]))
    (fun _ => none, [])

/-- A turn connection of the RATMS output. -/
structure Connection where
  roadId : ℕ
  lane : ℕ
  probability : ℚ
deriving DecidableEq, Repr

/-- A directed road segment of the RATMS output. -/
structure Road where
  id : ℕ
  osmWayId : ℤ
  name : String
  startLat : ℚ
  startLon : ℚ
  endLat : ℚ
  endLon : ℚ
  length : ℚ
  maxSpeed : ℚ
  lanes : ℤ
  connections : List Connection
deriving DecidableEq, Repr

/-- The mutable state of the decomposition loop of `build_road_network`:
the road list, the `road_id` counter, the write-only `node_pair_to_road`
map, the two node-keyed adjacency dictionaries, and the insertion order of
the keys of `node_to_incoming_roads`. -/
structure BuildState where
  roads : List Road
  roadId : ℕ
  pairMap : ℤ × ℤ → Option ℕ
  incoming : ℤ → List ℕ
  outgoing : ℤ → List ℕ
  incomingKeys : List ℤ

/-- The empty initial build state. -/
def initState : BuildState :=
  { roads := []
    roadId := 0
    pairMap := fun _ => none
    incoming := fun _ => []
    outgoing := fun _ => []
    incomingKeys := [] }

/-- The road dictionary created for one direction of one node pair. -/
def mkRoad (rid : ℕ) (w : Way) (a b : GeoPoint) (len : ℚ) : Road :=
  { id := rid
    osmWayId := w.id
    name := w.name
    startLat := a.lat
    startLon := a.lon
    endLat := b.lat
    endLon := b.lon
    length := pyRound 1 len
    maxSpeed := pyRound 1 w.maxSpeed
    lanes := w.lanes
    connections := [] }

/-- Append one road that runs from node `fromN` to node `toN`: register it
in the pair map and both adjacency dictionaries and advance the id
counter (`node_to_incoming_roads[toN]` gains its key here, in insertion
order, mirroring Python dict key order). -/
def pushRoad (st : BuildState) (r : Road) (fromN toN : ℤ) : BuildState :=
  { roads := st.roads ++ [r]
    roadId := st.roadId + 1
    pairMap := fun q => if q = (fromN, toN) then some st.roadId else st.pairMap q
    incoming := fun k => if k = toN then st.incoming k ++ [st.roadId] else st.incoming k
    outgoing := fun k => if k = fromN then st.outgoing k ++ [st.roadId] else st.outgoing k
    incomingKeys := if toN ∈ st.incomingKeys then st.incomingKeys
                    else st.incomingKeys ++ [toN] }

/-- The body of the inner decomposition loop for one consecutive node pair
`(sn, en)` of a way: skip on a missing node, an out-of-bounds endpoint or a
length below 5 m; otherwise push the forward road and, for bidirectional
ways, the reverse road. -/
def processPair (dist : ℚ → ℚ → ℚ → ℚ → ℚ) (nodes : ℤ → Option GeoPoint)
    (bbox : Bbox) (w : Way) (st : BuildState) (sn en : ℤ) : BuildState :=
  match nodes sn, nodes en with
  | some s, some e =>
    if inBounds bbox s then
      if inBounds bbox e then
        let len := dist s.lat s.lon e.lat e.lon
        if len < 5 then st
        else
          let st1 := pushRoad st (mkRoad st.roadId w s e len) sn en
          if w.oneway then st1
          else pushRoad st1 (mkRoad st1.roadId w e s len) en sn
      else st
    else st
  | _, _ => st

/-- The consecutive node pairs `(nodes[i], nodes[i+1])` of a way. -/
def consecutivePairs (l : List ℤ) : List (ℤ × ℤ) := l.zip l.tail

/-- The decomposition phase of `build_road_network`: fold over all ways and
all their consecutive node pairs. -/
def decompose (dist : ℚ → ℚ → ℚ → ℚ → ℚ) (nodes : ℤ → Option GeoPoint)
    (ways : List Way) (bbox : Bbox) : BuildState :=
  ways.foldl
    (fun st w =>
      (consecutivePairs w.nodes).foldl
        (fun st2 p => processPair dist nodes bbox w st2 p.1 p.2) st)
    initState

/-- The U-turn test of the connection loop: geometric equality of the two
segments' endpoints in swapped order. -/
def isUTurn (a b : Road) : Bool :=
  decide (a.startLat = b.endLat ∧ a.startLon = b.endLon ∧
          a.endLat = b.startLat ∧ a.endLon = b.startLon)

/-- One iteration of the innermost connection loop: look both roads up
(`none` models Python's IndexError), skip a U-turn, otherwise append the
connection `{roadId := outId, lane := 0, probability := prob}` to the
incoming road. -/
def connectStep (prob : ℚ) (inId outId : ℕ) (roads : List Road) :
    Option (List Road) :=
  match roads[inId]?, roads[outId]? with
  | some inRoad, some outRoad =>
    if isUTurn inRoad outRoad then some roads
    else some (roads.set inId
      { inRoad with connections := inRoad.connections ++ [⟨outId, 0, prob⟩] })
  | _, _ => none

/-- The `for out_road_id in outgoing` loop. -/
def connectOut (prob : ℚ) (inId : ℕ) : List ℕ → List Road → Option (List Road)
  | [], roads => some roads
  | outId :: rest, roads =>
    match connectStep prob inId outId roads with
    | none => none
    | some roads2 => connectOut prob inId rest roads2

/-- The `for in_road_id in incoming` loop. -/
def connectIn (prob : ℚ) (outs : List ℕ) : List ℕ → List Road → Option (List Road)
  | [], roads => some roads
  | inId :: rest, roads =>
    match connectOut prob inId outs roads with
    | none => none
    | some roads2 => connectIn prob outs rest roads2

/-- The per-node connection step: nodes with an empty outgoing set are
skipped; otherwise the probability is `round(1.0 / len(outgoing), 6)` (the
source's `else 0` branch is unreachable under the emptiness guard). -/
def connectNode (ins outs : List ℕ) (roads : List Road) : Option (List Road) :=
  if outs.isEmpty then some roads
  else connectIn (pyRound 6 (1 / (outs.length : ℚ))) outs ins roads

/-- The `for node_id in node_to_incoming_roads` loop, in dict key insertion
order. -/
def connectNodes (st : BuildState) : List ℤ → List Road → Option (List Road)
  | [], roads => some roads
  | n :: rest, roads =>
    match connectNode (st.incoming n) (st.outgoing n) roads with
    | none => none
    | some roads2 => connectNodes st rest roads2

/-- The connection phase of `build_road_network`. -/
def buildConnections (st : BuildState) : Option (List Road) :=
  connectNodes st st.incomingKeys st.roads

/-- `build_road_network`: decomposition followed by connection building;
`none` models an uncaught IndexError. -/
def build_road_network (dist : ℚ → ℚ → ℚ → ℚ → ℚ)
    (nodes : ℤ → Option GeoPoint) (ways : List Way) (bbox : Bbox) :
    Option (List Road) :=
  buildConnections (decompose dist nodes ways bbox)

/-- The RATMS network document. -/
structure Network where
  name : String
  bbox : Bbox
  roads : List Road
deriving DecidableEq, Repr

/-- The network assembly of `main` (lines 289-294): compose name, bounding
box and road list, with no check of any kind. -/
def assembleNetwork (name : String) (bbox : Bbox) (roads : List Road) : Network :=
  { name := name, bbox := bbox, roads := roads }

/-- Does every road's `id` equal its position (counted from `k`)? -/
def idsMatchFrom (k : ℕ) : List Road → Bool
  | [] => true
  | r :: rest => r.id = k && idsMatchFrom (k + 1) rest

/-- Network assembly as the specification words it ("asserting segment
identifiers equal their list positions", aborting on divergence).  Stated
only to be compared with the source's `assembleNetwork`. -/
def specAssembleNetwork (name : String) (bbox : Bbox) (roads : List Road) :
    Option Network :=
  if idsMatchFrom 0 roads then some { name := name, bbox := bbox, roads := roads }
  else none

/-! Concrete inputs used by the witnesses: a distance function, a bounding
box, and two small networks.  `exNodes`/`exWays` is the single
bidirectional three-node way of the specification's scenario (nodes
1 → 2 → 3); `exNodes3`/`exWays3` is a junction (node 5) with one incoming
and three outgoing one-way segments. -/

/-- A distance function for the concrete runs: constantly 10 m. -/
def exDist : ℚ → ℚ → ℚ → ℚ → ℚ := fun _ _ _ _ => 10

/-- Concrete bounding box for the examples. -/
def exBbox : Bbox := ⟨-1, -1, 1, 1⟩

/-- Concrete node set: three collinear nodes 1, 2, 3. -/
def exNodes : ℤ → Option GeoPoint := fun k =>
  if k = 1 then some ⟨0, 0⟩
  else if k = 2 then some ⟨0, 1/1000⟩
  else if k = 3 then some ⟨0, 2/1000⟩
  else none

/-- Concrete way set: one bidirectional residential way through 1, 2, 3. -/
def exWays : List Way :=
  [{ id := 7, nodes := [1, 2, 3], name := "", highway := "residential",
     maxSpeed := 25/3, lanes := 1, oneway := false }]

/-- Concrete node set for the junction example: node 5 is the centre. -/
def exNodes3 : ℤ → Option GeoPoint := fun k =>
  if k = 1 then some ⟨0, 0⟩
  else if k = 5 then some ⟨0, 1/1000⟩
  else if k = 2 then some ⟨0, 2/1000⟩
  else if k = 3 then some ⟨1/1000, 1/1000⟩
  else if k = 4 then some ⟨-1/1000, 1/1000⟩
  else none

/-- Concrete way set for the junction example: four one-way ways, one into
node 5 and three out of it. -/
def exWays3 : List Way :=
  [{ id := 11, nodes := [1, 5], name := "", highway := "residential",
     maxSpeed := 25/3, lanes := 1, oneway := true },
   { id := 12, nodes := [5, 2], name := "", highway := "residential",
     maxSpeed := 25/3, lanes := 1, oneway := true },
   { id := 13, nodes := [5, 3], name := "", highway := "residential",
     maxSpeed := 25/3, lanes := 1, oneway := true },
   { id := 14, nodes := [5, 4], name := "", highway := "residential",
     maxSpeed := 25/3, lanes := 1, oneway := true }]

/-- Segment 0 of the `exWays` run (node 1 to node 2), with its one
surviving connection to segment 2 at probability 1/2. -/
def exRoad0 : Road :=
  { id := 0, osmWayId := 7, name := "", startLat := 0, startLon := 0,
    endLat := 0, endLon := 1/1000, length := 10, maxSpeed := 83/10, lanes := 1,
    connections := [⟨2, 0, 1/2⟩] }

/-- Segment 1 of the `exWays` run (node 2 back to node 1). -/
def exRoad1 : Road :=
  { id := 1, osmWayId := 7, name := "", startLat := 0, startLon := 1/1000,
    endLat := 0, endLon := 0, length := 10, maxSpeed := 83/10, lanes := 1,
    connections := [] }

/-- Segment 2 of the `exWays` run (node 2 to node 3). -/
def exRoad2 : Road :=
  { id := 2, osmWayId := 7, name := "", startLat := 0, startLon := 1/1000,
    endLat := 0, endLon := 1/500, length := 10, maxSpeed := 83/10, lanes := 1,
    connections := [] }

/-- Segment 3 of the `exWays` run (node 3 back to node 2), with its one
surviving connection to segment 1 at probability 1/2. -/
def exRoad3 : Road :=
  { id := 3, osmWayId := 7, name := "", startLat := 0, startLon := 1/500,
    endLat := 0, endLon := 1/1000, length := 10, maxSpeed := 83/10, lanes := 1,
    connections := [⟨1, 0, 1/2⟩] }

/-- The network built from `exWays`: four segments; U-turn suppression
leaves segment 0 with one connection (to 2) and segment 3 with one
connection (to 1), each at probability 1/2. -/
def exRoads : List Road := [exRoad0, exRoad1, exRoad2, exRoad3]

/-- The network built from `exWays3`: segment 0 ends at the junction and
receives three connections, each at probability `round(1/3, 6)`. -/
def exRoads3 : List Road :=
  [{ id := 0, osmWayId := 11, name := "", startLat := 0, startLon := 0,
     endLat := 0, endLon := 1/1000, length := 10, maxSpeed := 83/10, lanes := 1,
     connections := [⟨1, 0, 333333/1000000⟩, ⟨2, 0, 333333/1000000⟩,
                     ⟨3, 0, 333333/1000000⟩] },
   { id := 1, osmWayId := 12, name := "", startLat := 0, startLon := 1/1000,
     endLat := 0, endLon := 1/500, length := 10, maxSpeed := 83/10, lanes := 1,
     connections := [] },
   { id := 2, osmWayId := 13, name := "", startLat := 0, startLon := 1/1000,
     endLat := 1/1000, endLon := 1/1000, length := 10, maxSpeed := 83/10, lanes := 1,
     connections := [] },
   { id := 3, osmWayId := 14, name := "", startLat := 0, startLon := 1/1000,
     endLat := -1/1000, endLon := 1/1000, length := 10, maxSpeed := 83/10, lanes := 1,
     connections := [] }]

/-! Arithmetic facts about the rounding model. -/

theorem ratFloor_eq_floor (q : ℚ) : ratFloor q = ⌊q⌋ := by
  rw [ratFloor, Rat.floor_def]

theorem floor_le_roundHalfEven (q : ℚ) : ⌊q⌋ ≤ roundHalfEven q := by
  simp only [roundHalfEven, ratFloor_eq_floor]
  split_ifs <;> omega

/-- Rounding to `d` digits does not drop below an integer lower bound. -/
theorem le_pyRound_of_le (d : ℕ) (m : ℤ) (q : ℚ) (h : (m : ℚ) ≤ q) :
    (m : ℚ) ≤ pyRound d q := by
  have h10 : (0 : ℚ) < (10 : ℚ) ^ d := by positivity
  rw [pyRound]
  rw [ge_iff_le.symm, ge_iff_le, le_div_iff₀ h10]
  have h1 : (m : ℚ) * (10 : ℚ) ^ d ≤ q * (10 : ℚ) ^ d :=
    mul_le_mul_of_nonneg_right h (le_of_lt h10)
  have h2 : ((m * 10 ^ d : ℤ) : ℚ) ≤ q * (10 : ℚ) ^ d := by push_cast; exact h1
  have h3 : (m * 10 ^ d : ℤ) ≤ ⌊q * (10 : ℚ) ^ d⌋ := Int.le_floor.mpr h2
  have h4 : (m * 10 ^ d : ℤ) ≤ roundHalfEven (q * (10 : ℚ) ^ d) :=
    le_trans h3 (floor_le_roundHalfEven _)
  calc (m : ℚ) * (10 : ℚ) ^ d = ((m * 10 ^ d : ℤ) : ℚ) := by push_cast; ring
    _ ≤ (roundHalfEven (q * (10 : ℚ) ^ d) : ℚ) := by exact_mod_cast h4

/-! The invariant of the decomposition phase. -/

/-- A road with its connection list erased: everything the connection phase
leaves untouched. -/
def stripConns (r : Road) : Road := { r with connections := [] }

/-- Invariant of the decomposition loop state: the id counter tracks the
list length, ids are positional, connection lists are empty, every road is
at least 5 m long with both endpoints in bounds, and the adjacency
dictionaries hold valid indices whose endpoint coordinates are those of
the keying node. -/
structure DecompInv (bbox : Bbox) (nodes : ℤ → Option GeoPoint)
    (st : BuildState) : Prop where
  counter : st.roadId = st.roads.length
  ids : ∀ (i : ℕ) (h : i < st.roads.length), (st.roads[i]).id = i
  conns : ∀ (i : ℕ) (h : i < st.roads.length), (st.roads[i]).connections = []
  geom : ∀ (i : ℕ) (h : i < st.roads.length),
    5 ≤ (st.roads[i]).length ∧
    inBounds bbox ⟨(st.roads[i]).startLat, (st.roads[i]).startLon⟩ = true ∧
    inBounds bbox ⟨(st.roads[i]).endLat, (st.roads[i]).endLon⟩ = true
  inc : ∀ (n : ℤ) (i : ℕ), i ∈ st.incoming n →
    ∃ (h : i < st.roads.length) (p : GeoPoint), nodes n = some p ∧
      (st.roads[i]).endLat = p.lat ∧ (st.roads[i]).endLon = p.lon
  outg : ∀ (n : ℤ) (i : ℕ), i ∈ st.outgoing n →
    ∃ (h : i < st.roads.length) (p : GeoPoint), nodes n = some p ∧
      (st.roads[i]).startLat = p.lat ∧ (st.roads[i]).startLon = p.lon

theorem initState_inv (bbox : Bbox) (nodes : ℤ → Option GeoPoint) :
    DecompInv bbox nodes initState := by
  refine ⟨rfl, ?_, ?_, ?_, ?_, ?_⟩
  · intro i h; simp [initState] at h
  · intro i h; simp [initState] at h
  · intro i h; simp [initState] at h
  · intro n i h; simp [initState] at h
  · intro n i h; simp [initState] at h

theorem pushRoad_inv {bbox : Bbox} {nodes : ℤ → Option GeoPoint}
    {st : BuildState} {r : Road} {fromN toN : ℤ}
    (hinv : DecompInv bbox nodes st)
    (hid : r.id = st.roadId)
    (hconn : r.connections = [])
    (hlen : 5 ≤ r.length)
    (hsb : inBounds bbox ⟨r.startLat, r.startLon⟩ = true)
    (heb : inBounds bbox ⟨r.endLat, r.endLon⟩ = true)
    (hfrom : ∃ p, nodes fromN = some p ∧ r.startLat = p.lat ∧ r.startLon = p.lon)
    (hto : ∃ p, nodes toN = some p ∧ r.endLat = p.lat ∧ r.endLon = p.lon) :
    DecompInv bbox nodes (pushRoad st r fromN toN) := by
  have hlenapp : (st.roads ++ [r]).length = st.roads.length + 1 := by
    simp [List.length_append]
  have hget_old : ∀ (i : ℕ) (h : i < st.roads.length)
      (h2 : i < (st.roads ++ [r]).length), (st.roads ++ [r])[i] = st.roads[i] :=
    fun i h h2 => List.getElem_append_left h
  have hget_last : ∀ (h2 : st.roads.length < (st.roads ++ [r]).length),
      (st.roads ++ [r])[st.roads.length] = r :=
    fun h2 => List.getElem_concat_length _ _ _ rfl h2
  have hget_ctr : ∀ (h2 : st.roadId < (st.roads ++ [r]).length),
      (st.roads ++ [r])[st.roadId] = r :=
    fun h2 => List.getElem_concat_length _ _ _ hinv.counter h2
  have hctr_lt : st.roadId < (st.roads ++ [r]).length := by
    rw [hlenapp, hinv.counter]; omega
  refine ⟨?_, ?_, ?_, ?_, ?_, ?_⟩
  · simp [pushRoad, hinv.counter, List.length_append]
  · intro i h
    simp only [pushRoad] at h ⊢
    rcases Nat.lt_or_ge i st.roads.length with hi | hi
    · rw [hget_old i hi h]; exact hinv.ids i hi
    · have : i = st.roads.length := by
        rw [hlenapp] at h; omega
      subst this
      rw [hget_last h, hid, hinv.counter]
  · intro i h
    simp only [pushRoad] at h ⊢
    rcases Nat.lt_or_ge i st.roads.length with hi | hi
    · rw [hget_old i hi h]; exact hinv.conns i hi
    · have : i = st.roads.length := by rw [hlenapp] at h; omega
      subst this
      rw [hget_last h]; exact hconn
  · intro i h
    simp only [pushRoad] at h ⊢
    rcases Nat.lt_or_ge i st.roads.length with hi | hi
    · rw [hget_old i hi h]; exact hinv.geom i hi
    · have : i = st.roads.length := by rw [hlenapp] at h; omega
      subst this
      rw [hget_last h]; exact ⟨hlen, hsb, heb⟩
  · intro n i hmem
    simp only [pushRoad] at hmem ⊢
    by_cases hn : n = toN
    · rw [if_pos hn] at hmem
      rcases List.mem_append.mp hmem with hold | hnew
      · rcases hinv.inc n i hold with ⟨h, p, hp, h1, h2⟩
        have h' : i < (st.roads ++ [r]).length := by rw [hlenapp]; omega
        exact ⟨h', p, hp, by rw [hget_old i h h']; exact h1,
          by rw [hget_old i h h']; exact h2⟩
      · have hi : i = st.roadId := List.mem_singleton.mp hnew
        subst hi
        rcases hto with ⟨p, hp, h1, h2⟩
        refine ⟨hctr_lt, p, by rw [hn]; exact hp, ?_, ?_⟩
        · rw [hget_ctr hctr_lt]; exact h1
        · rw [hget_ctr hctr_lt]; exact h2
    · rw [if_neg hn] at hmem
      rcases hinv.inc n i hmem with ⟨h, p, hp, h1, h2⟩
      have h' : i < (st.roads ++ [r]).length := by rw [hlenapp]; omega
      exact ⟨h', p, hp, by rw [hget_old i h h']; exact h1,
        by rw [hget_old i h h']; exact h2⟩
  · intro n i hmem
    simp only [pushRoad] at hmem ⊢
    by_cases hn : n = fromN
    · rw [if_pos hn] at hmem
      rcases List.mem_append.mp hmem with hold | hnew
      · rcases hinv.outg n i hold with ⟨h, p, hp, h1, h2⟩
        have h' : i < (st.roads ++ [r]).length := by rw [hlenapp]; omega
        exact ⟨h', p, hp, by rw [hget_old i h h']; exact h1,
          by rw [hget_old i h h']; exact h2⟩
      · have hi : i = st.roadId := List.mem_singleton.mp hnew
        subst hi
        rcases hfrom with ⟨p, hp, h1, h2⟩
        refine ⟨hctr_lt, p, by rw [hn]; exact hp, ?_, ?_⟩
        · rw [hget_ctr hctr_lt]; exact h1
        · rw [hget_ctr hctr_lt]; exact h2
    · rw [if_neg hn] at hmem
      rcases hinv.outg n i hmem with ⟨h, p, hp, h1, h2⟩
      have h' : i < (st.roads ++ [r]).length := by rw [hlenapp]; omega
      exact ⟨h', p, hp, by rw [hget_old i h h']; exact h1,
        by rw [hget_old i h h']; exact h2⟩

theorem processPair_inv (dist : ℚ → ℚ → ℚ → ℚ → ℚ) (nodes : ℤ → Option GeoPoint)
    (bbox : Bbox) (w : Way) (st : BuildState) (sn en : ℤ)
    (hinv : DecompInv bbox nodes st) :
    DecompInv bbox nodes (processPair dist nodes bbox w st sn en) := by
  unfold processPair
  cases hsn : nodes sn with
  | none => exact hinv
  | some s =>
    cases hen : nodes en with
    | none => exact hinv
    | some e =>
      dsimp only
      by_cases h1 : inBounds bbox s = true
      · rw [if_pos h1]
        by_cases h2 : inBounds bbox e = true
        · rw [if_pos h2]
          by_cases h3 : dist s.lat s.lon e.lat e.lon < 5
          · rw [if_pos h3]; exact hinv
          · rw [if_neg h3]
            have hlen5 : (5 : ℚ) ≤ pyRound 1 (dist s.lat s.lon e.lat e.lon) := by
              have h5 : (5 : ℚ) ≤ dist s.lat s.lon e.lat e.lon := le_of_not_lt h3
              exact_mod_cast le_pyRound_of_le 1 5 _ h5
            have hst1 : DecompInv bbox nodes
                (pushRoad st (mkRoad st.roadId w s e (dist s.lat s.lon e.lat e.lon)) sn en) := by
              apply pushRoad_inv hinv rfl rfl
              · exact hlen5
              · exact h1
              · exact h2
              · exact ⟨s, hsn, rfl, rfl⟩
              · exact ⟨e, hen, rfl, rfl⟩
            by_cases h4 : w.oneway = true
            · simp only [h4, if_true]; exact hst1
            · simp only [Bool.not_eq_true] at h4
              simp only [h4, Bool.false_eq_true, if_false]
              apply pushRoad_inv hst1 rfl rfl
              · exact hlen5
              · exact h2
              · exact h1
              · exact ⟨e, hen, rfl, rfl⟩
              · exact ⟨s, hsn, rfl, rfl⟩
        · rw [if_neg h2]; exact hinv
      · rw [if_neg h1]; exact hinv

theorem foldl_inv {α β : Type} (P : α → Prop) (f : α → β → α)
    (hstep : ∀ a b, P a → P (f a b)) :
    ∀ (l : List β) (init : α), P init → P (l.foldl f init) := by
  intro l
  induction l with
  | nil => intro init h; exact h
  | cons x xs ih => intro init h; exact ih _ (hstep _ _ h)

theorem decompose_inv (dist : ℚ → ℚ → ℚ → ℚ → ℚ) (nodes : ℤ → Option GeoPoint)
    (ways : List Way) (bbox : Bbox) :
    DecompInv bbox nodes (decompose dist nodes ways bbox) := by
  unfold decompose
  refine foldl_inv (DecompInv bbox nodes) _ ?_ ways initState (initState_inv bbox nodes)
  intro st w hst
  refine foldl_inv (DecompInv bbox nodes) _ ?_ (consecutivePairs w.nodes) st hst
  intro st2 p hst2
  exact processPair_inv dist nodes bbox w st2 p.1 p.2 hst2

/-! The invariant of the connection phase. -/

theorem stripConns_startLat (r : Road) : (stripConns r).startLat = r.startLat := rfl

theorem stripConns_startLon (r : Road) : (stripConns r).startLon = r.startLon := rfl

theorem stripConns_endLat (r : Road) : (stripConns r).endLat = r.endLat := rfl

theorem stripConns_endLon (r : Road) : (stripConns r).endLon = r.endLon := rfl

theorem stripConns_id (r : Road) : (stripConns r).id = r.id := rfl

theorem stripConns_length (r : Road) : (stripConns r).length = r.length := rfl

theorem isUTurn_congr {a a2 b b2 : Road} (ha : stripConns a = stripConns a2)
    (hb : stripConns b = stripConns b2) : isUTurn a b = isUTurn a2 b2 := by
  have h1 : a.startLat = a2.startLat := by
    rw [← stripConns_startLat, ← stripConns_startLat, ha]; rfl
  have h2 : a.startLon = a2.startLon := by
    rw [← stripConns_startLon, ← stripConns_startLon, ha]; rfl
  have h3 : a.endLat = a2.endLat := by
    rw [← stripConns_endLat, ← stripConns_endLat, ha]; rfl
  have h4 : a.endLon = a2.endLon := by
    rw [← stripConns_endLon, ← stripConns_endLon, ha]; rfl
  have h5 : b.startLat = b2.startLat := by
    rw [← stripConns_startLat, ← stripConns_startLat, hb]; rfl
  have h6 : b.startLon = b2.startLon := by
    rw [← stripConns_startLon, ← stripConns_startLon, hb]; rfl
  have h7 : b.endLat = b2.endLat := by
    rw [← stripConns_endLat, ← stripConns_endLat, hb]; rfl
  have h8 : b.endLon = b2.endLon := by
    rw [← stripConns_endLon, ← stripConns_endLon, hb]; rfl
  simp only [isUTurn, h1, h2, h3, h4, h5, h6, h7, h8]

theorem isUTurn_self {r : Road} (h1 : r.startLat = r.endLat)
    (h2 : r.startLon = r.endLon) : isUTurn r r = true := by
  simp [isUTurn, h1, h2]

/-- What holds of every connection the connection phase appends to the
road at index `i`: it was created at some node `n` where `i` is incoming
and its target outgoing, the probability is `round(1/|outgoing n|, 6)`
computed from the full (unsuppressed) outgoing count, the target differs
from the source, and the pair is not a geometric U-turn. -/
def ConnOK (st : BuildState) (i : ℕ) (c : Connection) : Prop :=
  ∃ n, i ∈ st.incoming n ∧ c.roadId ∈ st.outgoing n ∧ st.outgoing n ≠ [] ∧
    c.lane = 0 ∧
    c.probability = pyRound 6 (1 / ((st.outgoing n).length : ℚ)) ∧
    c.roadId ≠ i ∧
    ∃ (h : i < st.roads.length) (h2 : c.roadId < st.roads.length),
      isUTurn st.roads[i] st.roads[c.roadId] = false

/-- Invariant of the connection loops: the road list keeps its length, every
field but the connection list is untouched, and every connection present
satisfies `ConnOK`. -/
structure MidInv (st : BuildState) (rds : List Road) : Prop where
  len : rds.length = st.roads.length
  frame : ∀ (i : ℕ) (h : i < rds.length) (h2 : i < st.roads.length),
    stripConns rds[i] = stripConns st.roads[i]
  connsOK : ∀ (i : ℕ) (h : i < rds.length), ∀ c ∈ (rds[i]).connections, ConnOK st i c

theorem connectStep_ok {bbox : Bbox} {nodes : ℤ → Option GeoPoint}
    {st : BuildState} (hinv : DecompInv bbox nodes st)
    {n : ℤ} {inId outId : ℕ} {rds : List Road} (hmid : MidInv st rds)
    (hin : inId ∈ st.incoming n) (hout : outId ∈ st.outgoing n)
    (hne : st.outgoing n ≠ [])
    {prob : ℚ} (hprob : prob = pyRound 6 (1 / ((st.outgoing n).length : ℚ))) :
    ∃ rds2, connectStep prob inId outId rds = some rds2 ∧ MidInv st rds2 := by
  obtain ⟨hilt, pIn, hpIn, hInLat, hInLon⟩ := hinv.inc n inId hin
  obtain ⟨holt, pOut, hpOut, hOutLat, hOutLon⟩ := hinv.outg n outId hout
  have hilt2 : inId < rds.length := by rw [hmid.len]; exact hilt
  have holt2 : outId < rds.length := by rw [hmid.len]; exact holt
  have hinq : rds[inId]? = some rds[inId] := List.getElem?_eq_getElem hilt2
  have houtq : rds[outId]? = some rds[outId] := List.getElem?_eq_getElem holt2
  have hframe_in := hmid.frame inId hilt2 hilt
  have hframe_out := hmid.frame outId holt2 holt
  unfold connectStep
  rw [hinq, houtq]
  dsimp only
  by_cases hu : isUTurn rds[inId] rds[outId] = true
  · rw [if_pos hu]; exact ⟨rds, rfl, hmid⟩
  · rw [if_neg hu]
    have huf : isUTurn rds[inId] rds[outId] = false := by
      simpa using hu
    have hufSt : isUTurn st.roads[inId] st.roads[outId] = false := by
      rw [isUTurn_congr hframe_in hframe_out] at huf; exact huf
    have hneq : outId ≠ inId := by
      intro heq
      subst heq
      have hpp : pIn = pOut := by
        have := hpIn.symm.trans hpOut
        exact Option.some.inj this
      have hself : isUTurn st.roads[outId] st.roads[outId] = true := by
        apply isUTurn_self
        · rw [hOutLat, hInLat, hpp]
        · rw [hOutLon, hInLon, hpp]
      rw [hufSt] at hself
      exact Bool.false_ne_true hself
    refine ⟨_, rfl, ?_, ?_, ?_⟩
    · rw [List.length_set]; exact hmid.len
    · intro i h h2
      by_cases hi : i = inId
      · subst hi
        rw [List.getElem_set_self h]
        exact hmid.frame i (by rw [List.length_set] at h; exact h) h2
      · rw [List.getElem_set_ne (fun hh => hi hh.symm) h]
        exact hmid.frame i (by rw [List.length_set] at h; exact h) h2
    · intro i h c hc
      by_cases hi : i = inId
      · subst hi
        rw [List.getElem_set_self h] at hc
        simp only at hc
        rcases List.mem_append.mp hc with hold | hnew
        · exact hmid.connsOK i (by rw [List.length_set] at h; exact h) c hold
        · have hceq : c = ⟨outId, 0, prob⟩ := List.mem_singleton.mp hnew
          subst hceq
          exact ⟨n, hin, hout, hne, rfl, hprob, hneq, hilt, holt, hufSt⟩
      · rw [List.getElem_set_ne (fun hh => hi hh.symm) h] at hc
        exact hmid.connsOK i (by rw [List.length_set] at h; exact h) c hc

theorem connectOut_ok {bbox : Bbox} {nodes : ℤ → Option GeoPoint}
    {st : BuildState} (hinv : DecompInv bbox nodes st)
    {n : ℤ} {inId : ℕ} (hin : inId ∈ st.incoming n)
    (hne : st.outgoing n ≠ [])
    {prob : ℚ} (hprob : prob = pyRound 6 (1 / ((st.outgoing n).length : ℚ))) :
    ∀ (outs : List ℕ), (∀ o ∈ outs, o ∈ st.outgoing n) →
    ∀ (rds : List Road), MidInv st rds →
    ∃ rds2, connectOut prob inId outs rds = some rds2 ∧ MidInv st rds2 := by
  intro outs
  induction outs with
  | nil => intro _ rds hmid; exact ⟨rds, rfl, hmid⟩
  | cons o rest ih =>
    intro hsub rds hmid
    obtain ⟨rds1, hstep, hmid1⟩ :=
      connectStep_ok hinv hmid hin (hsub o (by simp)) hne hprob
    obtain ⟨rds2, hrest, hmid2⟩ :=
      ih (fun o2 ho2 => hsub o2 (by simp [ho2])) rds1 hmid1
    refine ⟨rds2, ?_, hmid2⟩
    simp only [connectOut]
    rw [hstep]
    exact hrest

theorem connectIn_ok {bbox : Bbox} {nodes : ℤ → Option GeoPoint}
    {st : BuildState} (hinv : DecompInv bbox nodes st)
    {n : ℤ} (hne : st.outgoing n ≠ [])
    {prob : ℚ} (hprob : prob = pyRound 6 (1 / ((st.outgoing n).length : ℚ))) :
    ∀ (ins : List ℕ), (∀ i ∈ ins, i ∈ st.incoming n) →
    ∀ (rds : List Road), MidInv st rds →
    ∃ rds2, connectIn prob (st.outgoing n) ins rds = some rds2 ∧ MidInv st rds2 := by
  intro ins
  induction ins with
  | nil => intro _ rds hmid; exact ⟨rds, rfl, hmid⟩
  | cons i rest ih =>
    intro hsub rds hmid
    obtain ⟨rds1, hstep, hmid1⟩ :=
      connectOut_ok hinv (hsub i (by simp)) hne hprob (st.outgoing n)
        (fun o ho => ho) rds hmid
    obtain ⟨rds2, hrest, hmid2⟩ :=
      ih (fun i2 hi2 => hsub i2 (by simp [hi2])) rds1 hmid1
    refine ⟨rds2, ?_, hmid2⟩
    simp only [connectIn]
    rw [hstep]
    exact hrest

theorem connectNode_ok {bbox : Bbox} {nodes : ℤ → Option GeoPoint}
    {st : BuildState} (hinv : DecompInv bbox nodes st) (n : ℤ)
    (rds : List Road) (hmid : MidInv st rds) :
    ∃ rds2, connectNode (st.incoming n) (st.outgoing n) rds = some rds2 ∧
      MidInv st rds2 := by
  unfold connectNode
  by_cases he : (st.outgoing n).isEmpty = true
  · rw [if_pos he]; exact ⟨rds, rfl, hmid⟩
  · rw [if_neg he]
    have hne : st.outgoing n ≠ [] := by
      intro hh; rw [hh] at he; exact he rfl
    exact connectIn_ok hinv hne rfl (st.incoming n) (fun i hi => hi) rds hmid

theorem connectNodes_ok {bbox : Bbox} {nodes : ℤ → Option GeoPoint}
    {st : BuildState} (hinv : DecompInv bbox nodes st) :
    ∀ (keys : List ℤ) (rds : List Road), MidInv st rds →
    ∃ rds2, connectNodes st keys rds = some rds2 ∧ MidInv st rds2 := by
  intro keys
  induction keys with
  | nil => intro rds hmid; exact ⟨rds, rfl, hmid⟩
  | cons k rest ih =>
    intro rds hmid
    obtain ⟨rds1, hstep, hmid1⟩ := connectNode_ok hinv k rds hmid
    obtain ⟨rds2, hrest, hmid2⟩ := ih rds1 hmid1
    refine ⟨rds2, ?_, hmid2⟩
    simp only [connectNodes]
    rw [hstep]
    exact hrest

/-- Master lemma: the whole conversion always succeeds (no index is ever
out of bounds) and its result satisfies the connection-phase invariant
relative to the decomposition state. -/
theorem build_spec (dist : ℚ → ℚ → ℚ → ℚ → ℚ) (nodes : ℤ → Option GeoPoint)
    (ways : List Way) (bbox : Bbox) :
    ∃ rds, build_road_network dist nodes ways bbox = some rds ∧
      MidInv (decompose dist nodes ways bbox) rds := by
  have hinv := decompose_inv dist nodes ways bbox
  have hmid0 : MidInv (decompose dist nodes ways bbox)
      (decompose dist nodes ways bbox).roads := by
    refine ⟨rfl, fun i h h2 => rfl, fun i h c hc => ?_⟩
    rw [hinv.conns i h] at hc
    exact absurd hc (List.not_mem_nil c)
  obtain ⟨rds, hconn, hmid⟩ := connectNodes_ok hinv
    (decompose dist nodes ways bbox).incomingKeys
    (decompose dist nodes ways bbox).roads hmid0
  exact ⟨rds, hconn, hmid⟩

/-- Extraction helper: every road of a successful run sits at the index
equal to its id, agrees with the decomposition road there on every field
but the connections, and all its connections satisfy `ConnOK`. -/
theorem build_mem_spec {dist : ℚ → ℚ → ℚ → ℚ → ℚ} {nodes : ℤ → Option GeoPoint}
    {ways : List Way} {bbox : Bbox} {rds : List Road} {r : Road}
    (hb : build_road_network dist nodes ways bbox = some rds) (hr : r ∈ rds) :
    ∃ (i : ℕ) (hlt : i < rds.length)
      (hlt2 : i < (decompose dist nodes ways bbox).roads.length),
      rds[i] = r ∧ r.id = i ∧
      stripConns r = stripConns (((decompose dist nodes ways bbox).roads)[i]) ∧
      ∀ c ∈ r.connections, ConnOK (decompose dist nodes ways bbox) i c := by
  obtain ⟨rds2, hb2, hmid⟩ := build_spec dist nodes ways bbox
  rw [hb] at hb2
  obtain rfl : rds = rds2 := Option.some.inj hb2
  have hinv := decompose_inv dist nodes ways bbox
  obtain ⟨i, hlt, hieq⟩ := List.mem_iff_getElem.mp hr
  have hlt2 : i < (decompose dist nodes ways bbox).roads.length := by
    rw [← hmid.len]; exact hlt
  have hframe := hmid.frame i hlt hlt2
  have hframe2 : stripConns r = stripConns (((decompose dist nodes ways bbox).roads)[i]) := by
    rw [← hieq]; exact hframe
  have hid : r.id = i := by
    rw [← stripConns_id r, hframe2, stripConns_id]
    exact hinv.ids i hlt2
  refine ⟨i, hlt, hlt2, hieq, hid, hframe2, ?_⟩
  intro c hc
  exact hmid.connsOK i hlt c (by rw [hieq]; exact hc)

/-! The claims. -/

/-- C5: no Connection in the final network references its own source
segment: for every segment `r` of a successful run and every connection
`c` on it, `c.roadId` differs from `r.id`. -/
theorem claim_C5_no_self_connection (dist : ℚ → ℚ → ℚ → ℚ → ℚ)
    (nodes : ℤ → Option GeoPoint) (ways : List Way) (bbox : Bbox)
    (rds : List Road) (r : Road) (c : Connection)
    (hb : build_road_network dist nodes ways bbox = some rds)
    (hr : r ∈ rds) (hc : c ∈ r.connections) : c.roadId ≠ r.id := by
  obtain ⟨i, hlt, hlt2, hieq, hid, hframe, hok⟩ := build_mem_spec hb hr
  obtain ⟨n, _, _, _, _, _, hne, _⟩ := hok c hc
  rw [hid]
  exact hne

/-- C1 (amended): every connection of a successful run was appended at a
node where its owner is incoming and its target outgoing; its probability
is `round(1/outgoingCount, 6)` for the full outgoing count at that node —
a value depending only on the node, hence identical for every incoming
segment there, and not renormalized after U-turn suppression. -/
theorem claim_C1_uniform_probability (dist : ℚ → ℚ → ℚ → ℚ → ℚ)
    (nodes : ℤ → Option GeoPoint) (ways : List Way) (bbox : Bbox)
    (rds : List Road) (r : Road) (c : Connection)
    (hb : build_road_network dist nodes ways bbox = some rds)
    (hr : r ∈ rds) (hc : c ∈ r.connections) :
    ∃ n, r.id ∈ (decompose dist nodes ways bbox).incoming n ∧
      c.roadId ∈ (decompose dist nodes ways bbox).outgoing n ∧
      (decompose dist nodes ways bbox).outgoing n ≠ [] ∧
      c.probability = pyRound 6
        (1 / (((decompose dist nodes ways bbox).outgoing n).length : ℚ)) := by
  obtain ⟨i, hlt, hlt2, hieq, hid, hframe, hok⟩ := build_mem_spec hb hr
  obtain ⟨n, hin, hout, hne, _, hprob, _, _⟩ := hok c hc
  rw [hid]
  exact ⟨n, hin, hout, hne, hprob⟩

/-- C6: no connection of a successful run is an immediate geometric
reversal of its owning segment: resolving the target by positional index
never yields swapped-equal endpoints. -/
theorem claim_C6_no_geometric_reversal (dist : ℚ → ℚ → ℚ → ℚ → ℚ)
    (nodes : ℤ → Option GeoPoint) (ways : List Way) (bbox : Bbox)
    (rds : List Road) (r t : Road) (c : Connection)
    (hb : build_road_network dist nodes ways bbox = some rds)
    (hr : r ∈ rds) (hc : c ∈ r.connections)
    (ht : rds[c.roadId]? = some t) :
    ¬(r.startLat = t.endLat ∧ r.startLon = t.endLon ∧
      r.endLat = t.startLat ∧ r.endLon = t.startLon) := by
  obtain ⟨rds2, hb2, hmid⟩ := build_spec dist nodes ways bbox
  rw [hb] at hb2
  obtain rfl : rds = rds2 := Option.some.inj hb2
  obtain ⟨i, hlt, hlt2, hieq, hid, hframe, hok⟩ := build_mem_spec hb hr
  obtain ⟨n, _, _, _, _, _, _, hstlt, hstlt2, hust⟩ := hok c hc
  have hclt : c.roadId < rds.length := by rw [hmid.len]; exact hstlt2
  have htq : rds[c.roadId]? = some (rds[c.roadId]) := List.getElem?_eq_getElem hclt
  rw [htq] at ht
  have hteq : t = rds[c.roadId] := (Option.some.inj ht).symm
  have hframet : stripConns t = stripConns
      (((decompose dist nodes ways bbox).roads)[c.roadId]) := by
    rw [hteq]; exact hmid.frame c.roadId hclt hstlt2
  have hcongr : isUTurn r t = isUTurn
      (((decompose dist nodes ways bbox).roads)[i])
      (((decompose dist nodes ways bbox).roads)[c.roadId]) :=
    isUTurn_congr hframe hframet
  have hfalse : isUTurn r t = false := by rw [hcongr]; exact hust
  intro hcontra
  have : isUTurn r t = true := by
    simp only [isUTurn, decide_eq_true_eq]
    exact hcontra
  rw [hfalse] at this
  exact Bool.false_ne_true this

/-- C7: every segment of a successful run is at least 5 m long and both of
its endpoints lie inside the bounding box (inclusive on both latitude and
longitude ranges). -/
theorem claim_C7_length_and_bounds (dist : ℚ → ℚ → ℚ → ℚ → ℚ)
    (nodes : ℤ → Option GeoPoint) (ways : List Way) (bbox : Bbox)
    (rds : List Road) (r : Road)
    (hb : build_road_network dist nodes ways bbox = some rds)
    (hr : r ∈ rds) :
    5 ≤ r.length ∧ inBounds bbox ⟨r.startLat, r.startLon⟩ = true ∧
      inBounds bbox ⟨r.endLat, r.endLon⟩ = true := by
  obtain ⟨i, hlt, hlt2, hieq, hid, hframe, hok⟩ := build_mem_spec hb hr
  have hinv := decompose_inv dist nodes ways bbox
  obtain ⟨hg1, hg2, hg3⟩ := hinv.geom i hlt2
  have hlen : r.length = (((decompose dist nodes ways bbox).roads)[i]).length := by
    rw [← stripConns_length r, hframe, stripConns_length]
  have hsl : r.startLat = (((decompose dist nodes ways bbox).roads)[i]).startLat := by
    rw [← stripConns_startLat r, hframe, stripConns_startLat]
  have hslon : r.startLon = (((decompose dist nodes ways bbox).roads)[i]).startLon := by
    rw [← stripConns_startLon r, hframe, stripConns_startLon]
  have hel : r.endLat = (((decompose dist nodes ways bbox).roads)[i]).endLat := by
    rw [← stripConns_endLat r, hframe, stripConns_endLat]
  have helon : r.endLon = (((decompose dist nodes ways bbox).roads)[i]).endLon := by
    rw [← stripConns_endLon r, hframe, stripConns_endLon]
  refine ⟨by rw [hlen]; exact hg1, ?_, ?_⟩
  · rw [hsl, hslon]; exact hg2
  · rw [hel, helon]; exact hg3

/-- C9: every id stored in the per-node incoming/outgoing adjacency lists
is a valid index into the decomposition's road list whose road carries
that id, and consequently the connection phase's list lookups always
succeed. -/
theorem claim_C9_adjacency_ids_valid (dist : ℚ → ℚ → ℚ → ℚ → ℚ)
    (nodes : ℤ → Option GeoPoint) (ways : List Way) (bbox : Bbox)
    (n : ℤ) (i : ℕ)
    (hmem : i ∈ (decompose dist nodes ways bbox).incoming n ∨
            i ∈ (decompose dist nodes ways bbox).outgoing n) :
    (∃ (h : i < (decompose dist nodes ways bbox).roads.length),
      (((decompose dist nodes ways bbox).roads)[i]).id = i) ∧
    (build_road_network dist nodes ways bbox).isSome = true := by
  have hinv := decompose_inv dist nodes ways bbox
  constructor
  · rcases hmem with h | h
    · obtain ⟨hlt, _, _, _, _⟩ := hinv.inc n i h
      exact ⟨hlt, hinv.ids i hlt⟩
    · obtain ⟨hlt, _, _, _, _⟩ := hinv.outg n i h
      exact ⟨hlt, hinv.ids i hlt⟩
  · obtain ⟨rds, hb, _⟩ := build_spec dist nodes ways bbox
    rw [hb]
    rfl

/-- A road whose id (5) diverges from its position (0), for exercising the
assembler on inconsistent input. -/
def badRoad : Road :=
  { id := 5, osmWayId := 0, name := "", startLat := 0, startLon := 0,
    endLat := 0, endLon := 0, length := 0, maxSpeed := 0, lanes := 0,
    connections := [] }

/-- C2 (amended): the assembler performs no validation at all — even on a
road list whose positional ids diverge from the assigned ids it emits the
composed network unchanged, where the specification's version would have
aborted. -/
theorem claim_C2_assembler_no_validation (name : String) (bbox : Bbox)
    (roads : List Road) (hbad : idsMatchFrom 0 roads = false) :
    assembleNetwork name bbox roads =
      { name := name, bbox := bbox, roads := roads } ∧
    specAssembleNetwork name bbox roads = none := by
  refine ⟨rfl, ?_⟩
  unfold specAssembleNetwork
  rw [hbad]
  rfl

/-- C2 counterexample: the claim says an id/position divergence makes the
run abort; the source's assembler emits the network containing the
divergent segment, while only the specification's version aborts. -/
theorem claim_C2_counterexample :
    badRoad.id ≠ 0 ∧
    (assembleNetwork "N" exBbox [badRoad]).roads = [badRoad] ∧
    specAssembleNetwork "N" exBbox [badRoad] = none := by
  refine ⟨by decide, rfl, by with_unfolding_all decide⟩

/-- C3 (amended): when a `maxspeed` tag is present, the way's emitted
speed is `n / 3.6` where `n` is the integer obtained after removing the
source's unit literals `" km/h"` and `" mph"` (leading space included, no
mph conversion), and the table value divided by 3.6 when that parse
fails. -/
theorem claim_C3_maxspeed_override (wid : ℤ) (refs : List ℤ) (tags : Tags)
    (s : String) (hs : tags.lookup "maxspeed" = some s) :
    (∃ n, pyParseInt (stripUnits s) = some n ∧
      (parseWay wid refs tags).maxSpeed = (n : ℚ) / 3.6) ∨
    (pyParseInt (stripUnits s) = none ∧
      (parseWay wid refs tags).maxSpeed =
        (roadTypeSpeed (wayHighway tags) : ℚ) / 3.6) := by
  cases hp : pyParseInt (stripUnits s) with
  | some n =>
    left
    refine ⟨n, rfl, ?_⟩
    simp only [parseWay, waySpeedKmh, hs, hp]
  | none =>
    right
    refine ⟨rfl, ?_⟩
    simp only [parseWay, waySpeedKmh, hs, hp]

/-- C3 counterexample: the tag value "50km/h" (no space before the unit)
parses after stripping the claim's suffixes "km/h"/"mph", yet the source
keeps the 30 km/h table default because its literals carry a leading
space. -/
theorem claim_C3_counterexample :
    pyParseInt (specStripUnits "50km/h") = some 50 ∧
    pyParseInt (stripUnits "50km/h") = none ∧
    (parseWay 1 [] [("highway", "residential"), ("maxspeed", "50km/h")]).maxSpeed
      = (30 : ℚ) / 3.6 ∧
    (30 : ℚ) / 3.6 ≠ (50 : ℚ) / 3.6 := by
  refine ⟨by with_unfolding_all rfl, by with_unfolding_all rfl,
    by with_unfolding_all rfl, by with_unfolding_all decide⟩

/-- C1 counterexample: at a junction with three outgoing segments the
stored probability is `round(1/3, 6) = 333333/1000000`, not `1/3` as the
claim states. -/
theorem claim_C1_counterexample :
    build_road_network exDist exNodes3 exWays3 exBbox = some exRoads3 ∧
    ((decompose exDist exNodes3 exWays3 exBbox).outgoing 5).length = 3 ∧
    (0 : ℕ) ∈ (decompose exDist exNodes3 exWays3 exBbox).incoming 5 ∧
    (exRoads3.map Road.connections).head? =
      some [⟨1, 0, 333333/1000000⟩, ⟨2, 0, 333333/1000000⟩,
            ⟨3, 0, 333333/1000000⟩] ∧
    (333333 / 1000000 : ℚ) ≠ 1 / 3 := by
  refine ⟨by with_unfolding_all rfl, by with_unfolding_all rfl,
    by with_unfolding_all decide, by with_unfolding_all rfl,
    by with_unfolding_all decide⟩

/-- C4: for a node pair that passes all filters, a one-way way yields
exactly one (forward) segment carrying the way's full lane count, and a
bidirectional way exactly two segments — forward plus reverse with swapped
endpoints, equal length and speed, and the halved-floored-at-least-one
lane count on both. -/
theorem claim_C4_segments_per_pair (dist : ℚ → ℚ → ℚ → ℚ → ℚ)
    (nodes : ℤ → Option GeoPoint) (bbox : Bbox) (st : BuildState)
    (wid : ℤ) (refs : List ℤ) (tags : Tags) (sn en : ℤ) (s e : GeoPoint)
    (hsn : nodes sn = some s) (hen : nodes en = some e)
    (hsb : inBounds bbox s = true) (heb : inBounds bbox e = true)
    (hlen : ¬ dist s.lat s.lon e.lat e.lon < 5) :
    (wayOneway tags = true →
      ∃ fwd, (processPair dist nodes bbox (parseWay wid refs tags) st sn en).roads
          = st.roads ++ [fwd] ∧ fwd.lanes = wayLaneCount tags) ∧
    (wayOneway tags = false →
      ∃ fwd rev,
        (processPair dist nodes bbox (parseWay wid refs tags) st sn en).roads
          = st.roads ++ [fwd, rev] ∧
        fwd.lanes = max 1 ((wayLaneCount tags).fdiv 2) ∧
        rev.lanes = fwd.lanes ∧ rev.length = fwd.length ∧
        rev.maxSpeed = fwd.maxSpeed ∧
        rev.startLat = fwd.endLat ∧ rev.startLon = fwd.endLon ∧
        rev.endLat = fwd.startLat ∧ rev.endLon = fwd.startLon) := by
  unfold processPair
  rw [hsn, hen]
  dsimp only
  rw [if_pos hsb, if_pos heb, if_neg hlen]
  have honeway : (parseWay wid refs tags).oneway = wayOneway tags := rfl
  have hlanes : (parseWay wid refs tags).lanes =
      (if wayOneway tags then wayLaneCount tags
       else max 1 ((wayLaneCount tags).fdiv 2)) := rfl
  constructor
  · intro h1
    rw [honeway, h1]
    simp only [if_true]
    refine ⟨_, rfl, ?_⟩
    show (parseWay wid refs tags).lanes = wayLaneCount tags
    rw [hlanes, h1]
    rfl
  · intro h1
    rw [honeway, h1]
    simp only [Bool.false_eq_true, if_false]
    refine ⟨mkRoad st.roadId (parseWay wid refs tags) s e
        (dist s.lat s.lon e.lat e.lon),
      mkRoad (pushRoad st (mkRoad st.roadId (parseWay wid refs tags) s e
        (dist s.lat s.lon e.lat e.lon)) sn en).roadId
        (parseWay wid refs tags) e s (dist s.lat s.lon e.lat e.lon),
      ?_, ?_, rfl, rfl, rfl, rfl, rfl, rfl, rfl⟩
    · show ((st.roads ++ [_]) ++ [_]) = st.roads ++ [_, _]
      rw [List.append_assoc]
      rfl
    · show (parseWay wid refs tags).lanes = max 1 ((wayLaneCount tags).fdiv 2)
      rw [hlanes, h1]
      rfl

/-- C8: a way is one-way exactly when its `oneway` tag value is the
literal string "yes", "1" or "true" (case-sensitive); any other value or
an absent tag leaves it bidirectional. -/
theorem claim_C8_oneway_literals (wid : ℤ) (refs : List ℤ) (tags : Tags) :
    (parseWay wid refs tags).oneway = true ↔
      ∃ v, tags.lookup "oneway" = some v ∧
        (v = "yes" ∨ v = "1" ∨ v = "true") := by
  have h : (parseWay wid refs tags).oneway = wayOneway tags := rfl
  rw [h]
  unfold wayOneway
  cases hv : tags.lookup "oneway" with
  | none =>
    simp only [hv, Option.getD_none, Option.getD_some]
    constructor
    · intro hcontra
      simp at hcontra
    · rintro ⟨v, hvv, _⟩
      exact absurd hvv (by simp)
  | some v =>
    simp only [hv, Option.getD_some]
    constructor
    · intro htrue
      refine ⟨v, rfl, ?_⟩
      have := htrue
      simp only [Bool.or_eq_true, decide_eq_true_eq] at this
      tauto
    · rintro ⟨v2, hvv, hval⟩
      have : v2 = v := (Option.some.inj hvv).symm
      subst this
      simp [Bool.or_eq_true, decide_eq_true_eq]
      tauto

/-- C10: a way record without a `highway` tag is still parsed (never
rejected); it is classified as "unclassified", whose table defaults are
30 km/h and 1 lane, before any explicit-tag overrides. -/
theorem claim_C10_missing_highway_defaults (es : List OsmElement) (wid : ℤ)
    (refs : List ℤ) (tags : Tags) (hh : tags.lookup "highway" = none) :
    wayHighway tags = "unclassified" ∧
    roadTypeSpeed (wayHighway tags) = 30 ∧
    defaultLaneCount (wayHighway tags) = 1 ∧
    (parse_osm_data (es ++ [OsmElement.way wid refs tags])).2 =
      (parse_osm_data es).2 ++ [parseWay wid refs tags] := by
  have h1 : wayHighway tags = "unclassified" := by
    simp [wayHighway, hh]
  refine ⟨h1, by rw [h1]; with_unfolding_all rfl, by rw [h1]; with_unfolding_all rfl, ?_⟩
  unfold parse_osm_data
  rw [List.foldl_append]
  simp only [List.foldl_cons, List.foldl_nil]

/-! Witnesses: each proved theorem with hypotheses, applied at a concrete
input with every hypothesis discharged by evaluation. -/

/-- The connection owned by segment 0 of the `exWays` run. -/
def exConn0 : Connection := ⟨2, 0, 1/2⟩

/-- Tags of a bidirectional residential way with no explicit overrides. -/
def exTagsBi : Tags := [("highway", "residential")]

theorem claim_C5_witness :
    build_road_network exDist exNodes exWays exBbox = some exRoads ∧
    exRoad0 ∈ exRoads ∧ exConn0 ∈ exRoad0.connections ∧
    exConn0.roadId ≠ exRoad0.id := by
  have hb : build_road_network exDist exNodes exWays exBbox = some exRoads := by
    with_unfolding_all rfl
  have hr : exRoad0 ∈ exRoads := by with_unfolding_all decide
  have hc : exConn0 ∈ exRoad0.connections := by with_unfolding_all decide
  exact ⟨hb, hr, hc,
    claim_C5_no_self_connection exDist exNodes exWays exBbox exRoads exRoad0
      exConn0 hb hr hc⟩

theorem claim_C1_witness :
    build_road_network exDist exNodes exWays exBbox = some exRoads ∧
    exRoad0 ∈ exRoads ∧ exConn0 ∈ exRoad0.connections ∧
    (∃ n, exRoad0.id ∈ (decompose exDist exNodes exWays exBbox).incoming n ∧
      exConn0.roadId ∈ (decompose exDist exNodes exWays exBbox).outgoing n ∧
      (decompose exDist exNodes exWays exBbox).outgoing n ≠ [] ∧
      exConn0.probability = pyRound 6
        (1 / (((decompose exDist exNodes exWays exBbox).outgoing n).length : ℚ))) := by
  have hb : build_road_network exDist exNodes exWays exBbox = some exRoads := by
    with_unfolding_all rfl
  have hr : exRoad0 ∈ exRoads := by with_unfolding_all decide
  have hc : exConn0 ∈ exRoad0.connections := by with_unfolding_all decide
  exact ⟨hb, hr, hc,
    claim_C1_uniform_probability exDist exNodes exWays exBbox exRoads exRoad0
      exConn0 hb hr hc⟩

theorem claim_C6_witness :
    build_road_network exDist exNodes exWays exBbox = some exRoads ∧
    exRoad0 ∈ exRoads ∧ exConn0 ∈ exRoad0.connections ∧
    exRoads[exConn0.roadId]? = some exRoad2 ∧
    ¬(exRoad0.startLat = exRoad2.endLat ∧ exRoad0.startLon = exRoad2.endLon ∧
      exRoad0.endLat = exRoad2.startLat ∧ exRoad0.endLon = exRoad2.startLon) := by
  have hb : build_road_network exDist exNodes exWays exBbox = some exRoads := by
    with_unfolding_all rfl
  have hr : exRoad0 ∈ exRoads := by with_unfolding_all decide
  have hc : exConn0 ∈ exRoad0.connections := by with_unfolding_all decide
  have ht : exRoads[exConn0.roadId]? = some exRoad2 := by with_unfolding_all decide
  exact ⟨hb, hr, hc, ht,
    claim_C6_no_geometric_reversal exDist exNodes exWays exBbox exRoads exRoad0
      exRoad2 exConn0 hb hr hc ht⟩

theorem claim_C7_witness :
    build_road_network exDist exNodes exWays exBbox = some exRoads ∧
    exRoad0 ∈ exRoads ∧
    (5 ≤ exRoad0.length ∧
      inBounds exBbox ⟨exRoad0.startLat, exRoad0.startLon⟩ = true ∧
      inBounds exBbox ⟨exRoad0.endLat, exRoad0.endLon⟩ = true) := by
  have hb : build_road_network exDist exNodes exWays exBbox = some exRoads := by
    with_unfolding_all rfl
  have hr : exRoad0 ∈ exRoads := by with_unfolding_all decide
  exact ⟨hb, hr,
    claim_C7_length_and_bounds exDist exNodes exWays exBbox exRoads exRoad0 hb hr⟩

theorem claim_C9_witness :
    ((0 : ℕ) ∈ (decompose exDist exNodes exWays exBbox).incoming 2 ∨
     (0 : ℕ) ∈ (decompose exDist exNodes exWays exBbox).outgoing 2) ∧
    ((∃ h : 0 < (decompose exDist exNodes exWays exBbox).roads.length,
        (((decompose exDist exNodes exWays exBbox).roads)[0]).id = 0) ∧
      (build_road_network exDist exNodes exWays exBbox).isSome = true) := by
  have hmem : (0 : ℕ) ∈ (decompose exDist exNodes exWays exBbox).incoming 2 ∨
      (0 : ℕ) ∈ (decompose exDist exNodes exWays exBbox).outgoing 2 := by
    left; with_unfolding_all decide
  exact ⟨hmem, claim_C9_adjacency_ids_valid exDist exNodes exWays exBbox 2 0 hmem⟩

theorem claim_C2_witness :
    idsMatchFrom 0 [badRoad] = false ∧
    (assembleNetwork "N" exBbox [badRoad] =
      { name := "N", bbox := exBbox, roads := [badRoad] } ∧
     specAssembleNetwork "N" exBbox [badRoad] = none) := by
  have hbad : idsMatchFrom 0 [badRoad] = false := by with_unfolding_all decide
  exact ⟨hbad, claim_C2_assembler_no_validation "N" exBbox [badRoad] hbad⟩

/-- Tags with an explicit "60 mph" speed: the parsed 60 is used as km/h. -/
def exTagsMph : Tags := [("highway", "residential"), ("maxspeed", "60 mph")]

theorem claim_C3_witness :
    exTagsMph.lookup "maxspeed" = some "60 mph" ∧
    ((∃ n, pyParseInt (stripUnits "60 mph") = some n ∧
        (parseWay 1 [] exTagsMph).maxSpeed = (n : ℚ) / 3.6) ∨
     (pyParseInt (stripUnits "60 mph") = none ∧
        (parseWay 1 [] exTagsMph).maxSpeed =
          (roadTypeSpeed (wayHighway exTagsMph) : ℚ) / 3.6)) := by
  have hs : exTagsMph.lookup "maxspeed" = some "60 mph" := by
    with_unfolding_all rfl
  exact ⟨hs, claim_C3_maxspeed_override 1 [] exTagsMph "60 mph" hs⟩

theorem claim_C4_witness :
    (exNodes 1 = some ⟨0, 0⟩ ∧ exNodes 2 = some ⟨0, 1/1000⟩ ∧
     inBounds exBbox ⟨0, 0⟩ = true ∧ inBounds exBbox ⟨0, 1/1000⟩ = true ∧
     ¬ exDist 0 0 0 (1/1000) < 5) ∧
    ((wayOneway exTagsBi = true →
      ∃ fwd, (processPair exDist exNodes exBbox (parseWay 7 [1, 2] exTagsBi)
          initState 1 2).roads = initState.roads ++ [fwd] ∧
        fwd.lanes = wayLaneCount exTagsBi) ∧
     (wayOneway exTagsBi = false →
      ∃ fwd rev, (processPair exDist exNodes exBbox (parseWay 7 [1, 2] exTagsBi)
          initState 1 2).roads = initState.roads ++ [fwd, rev] ∧
        fwd.lanes = max 1 ((wayLaneCount exTagsBi).fdiv 2) ∧
        rev.lanes = fwd.lanes ∧ rev.length = fwd.length ∧
        rev.maxSpeed = fwd.maxSpeed ∧
        rev.startLat = fwd.endLat ∧ rev.startLon = fwd.endLon ∧
        rev.endLat = fwd.startLat ∧ rev.endLon = fwd.startLon)) := by
  have h1 : exNodes 1 = some ⟨0, 0⟩ := by with_unfolding_all rfl
  have h2 : exNodes 2 = some ⟨0, 1/1000⟩ := by with_unfolding_all rfl
  have h3 : inBounds exBbox ⟨0, 0⟩ = true := by with_unfolding_all decide
  have h4 : inBounds exBbox ⟨0, 1/1000⟩ = true := by with_unfolding_all decide
  have h5 : ¬ exDist 0 0 0 (1/1000) < 5 := by with_unfolding_all decide
  exact ⟨⟨h1, h2, h3, h4, h5⟩,
    claim_C4_segments_per_pair exDist exNodes exBbox initState 7 [1, 2] exTagsBi
      1 2 ⟨0, 0⟩ ⟨0, 1/1000⟩ h1 h2 h3 h4 h5⟩

theorem claim_C8_witness :
    (parseWay 1 [] [("oneway", "yes")]).oneway = true ↔
      ∃ v, ([("oneway", "yes")] : Tags).lookup "oneway" = some v ∧
        (v = "yes" ∨ v = "1" ∨ v = "true") :=
  claim_C8_oneway_literals 1 [] [("oneway", "yes")]

/-- Tags with no `highway` key at all. -/
def exTagsNoHighway : Tags := [("maxspeed", "50")]

theorem claim_C10_witness :
    exTagsNoHighway.lookup "highway" = none ∧
    (wayHighway exTagsNoHighway = "unclassified" ∧
     roadTypeSpeed (wayHighway exTagsNoHighway) = 30 ∧
     defaultLaneCount (wayHighway exTagsNoHighway) = 1 ∧
     (parse_osm_data ([] ++ [OsmElement.way 9 [1, 2] exTagsNoHighway])).2 =
       (parse_osm_data []).2 ++ [parseWay 9 [1, 2] exTagsNoHighway]) := by
  have hh : exTagsNoHighway.lookup "highway" = none := by with_unfolding_all rfl
  exact ⟨hh, claim_C10_missing_highway_defaults [] 9 [1, 2] exTagsNoHighway hh⟩

end OsmToRatms
